import Mathlib

/-!
Verification development for 推广/video_generator/generate_video.py, a script
that renders six still scenes with PIL and concatenates them with moviepy into
a promotional video.  Pure fragments of the script are embedded as Lean
functions; the filesystem/font environment and the moviepy clip algebra are
modelled by explicit state records.  All definitions are executable.
-/

namespace SynapseVideo

/-! ### Hex colour parsing (hex_to_rgb)

`hex_to_rgb` strips leading '#' characters with `lstrip('#')` and applies
Python's `int(s, 16)` to the three two-character slices `s[0:2]`, `s[2:4]`,
`s[4:6]`.  `pyIntHex` models `int(s, 16)` on ASCII input: surrounding
whitespace is stripped, an optional sign and optional `0x`/`0X` marker are
accepted, single underscores may separate hex digits, and at least one digit
is required; anything else raises `ValueError`, modelled as `none`. -/

/-- The ASCII hexadecimal digits accepted by Python's `int(s, 16)`. -/
def hexChars : List Char := "0123456789abcdefABCDEF".toList

def isHexDigit (c : Char) : Bool := decide (c ∈ hexChars)

/-- Numeric value of a hex digit. -/
def hexDigitVal (c : Char) : Nat :=
  if c ≤ '9' then c.toNat - 48
  else if c ≤ 'F' then c.toNat - 55
  else c.toNat - 87

/-- Hex digits after the first one; a single underscore may sit between two
digits (Python's numeric-literal underscore rule). -/
def hexRest : List Char → Nat → Option Nat
  | [], acc => some acc
  | c :: cs, acc =>
      if c = '_' then
        match cs with
        | [] => none
        | d :: ds => if isHexDigit d then hexRest ds (acc * 16 + hexDigitVal d) else none
      else if isHexDigit c then hexRest cs (acc * 16 + hexDigitVal c) else none

/-- A nonempty run of hex digits (with internal underscores). -/
def hexRun : List Char → Option Nat
  | [] => none
  | c :: cs => if isHexDigit c then hexRest cs (hexDigitVal c) else none

/-- Magnitude part of `int(s, 16)`: optional `0x`/`0X` marker, optionally
followed by one underscore, then a digit run. -/
def pyHexMagnitude (l : List Char) : Option Nat :=
  match l with
  | c0 :: c1 :: rest =>
      if c0 = '0' ∧ (c1 = 'x' ∨ c1 = 'X') then
        match rest with
        | c2 :: rest2 => if c2 = '_' then hexRun rest2 else hexRun (c2 :: rest2)
        | [] => none
      else hexRun (c0 :: c1 :: rest)
  | _ => hexRun l

/-- Signed magnitude: optional leading '+' or '-'. -/
def pyIntHexCore (l : List Char) : Option Int :=
  match l with
  | [] => none
  | c :: rest =>
      if c = '+' then (pyHexMagnitude rest).map Int.ofNat
      else if c = '-' then (pyHexMagnitude rest).map (fun n => -(Int.ofNat n))
      else (pyHexMagnitude (c :: rest)).map Int.ofNat

/-- Strip whitespace from both ends, as `int` does before parsing. -/
def stripChars (l : List Char) : List Char :=
  ((l.dropWhile Char.isWhitespace).reverse.dropWhile Char.isWhitespace).reverse

/-- Model of Python's `int(s, 16)`: `none` models a raised `ValueError`. -/
def pyIntHex (l : List Char) : Option Int := pyIntHexCore (stripChars l)

/-- Python slice `s[i:i+2]` (truncated at the end of the string). -/
def slicePair (l : List Char) (i : Nat) : List Char := (l.drop i).take 2

/-- `hex_color.lstrip('#')`: remove every leading '#'. -/
def hexStripped (s : List Char) : List Char := s.dropWhile (fun c => c == '#')

/-- `hex_to_rgb` from the source:
`tuple(int(hex_color[i:i+2], 16) for i in (0, 2, 4))` after `lstrip('#')`.
`none` models the `ValueError` propagating to the caller. -/
def hex_to_rgb (s : List Char) : Option (Int × Int × Int) :=
  match pyIntHex (slicePair (hexStripped s) 0), pyIntHex (slicePair (hexStripped s) 2),
        pyIntHex (slicePair (hexStripped s) 4) with
  | some r, some g, some b => some (r, g, b)
  | _, _, _ => none

/-- Exactly six hex digits. -/
def validHex6 (s : List Char) : Bool := s.length == 6 && s.all isHexDigit

def upperDigits : List Char := "0123456789ABCDEF".toList

def lowerDigits : List Char := "0123456789abcdef".toList

def isUpperHexDigit (c : Char) : Bool := decide (c ∈ upperDigits)

def isLowerHexDigit (c : Char) : Bool := decide (c ∈ lowerDigits)

/-- Canonical all-uppercase six-digit code (digits 0-9 have no case). -/
def upperHex6 (s : List Char) : Bool := s.length == 6 && s.all isUpperHexDigit

/-- Canonical all-lowercase six-digit code. -/
def lowerHex6 (s : List Char) : Bool := s.length == 6 && s.all isLowerHexDigit

def toHexDigitU (n : Nat) : Char := upperDigits.getD n '!'

def toHexDigitL (n : Nat) : Char := lowerDigits.getD n '!'

/-- Two-digit uppercase rendering of a byte. -/
def encodePairU (n : Nat) : List Char := [toHexDigitU (n / 16), toHexDigitU (n % 16)]

/-- Two-digit lowercase rendering of a byte. -/
def encodePairL (n : Nat) : List Char := [toHexDigitL (n / 16), toHexDigitL (n % 16)]

/-- Canonical uppercase encoding of an RGB triple. -/
def encodeRGBU (r g b : Nat) : List Char := encodePairU r ++ encodePairU g ++ encodePairU b

/-- Canonical lowercase encoding of an RGB triple. -/
def encodeRGBL (r g b : Nat) : List Char := encodePairL r ++ encodePairL g ++ encodePairL b

/-- Follows the spec's words, not the source: a well-formed colour code is
exactly six hex digits, optionally preceded by one leading '#' marker. -/
def specWellFormedColor (s : List Char) : Bool :=
  validHex6 s ||
    (match s with
     | c :: t => c == '#' && validHex6 t
     | [] => false)

/-! ### Font resolution

Both `create_text_image` and `create_comparison_chart` resolve fonts with the
same loop: for each candidate path, if it exists on the filesystem, the sized
handles are loaded one after another inside a `try`; the loop breaks after a
path loads at every size, while a load failure falls into `except: continue`,
keeping any handles already assigned in that iteration.  Afterwards, if the
first handle was never assigned, every handle is set to the default font.
The filesystem and font loader are modelled by `FontEnv`. -/

structure FontEnv where
  pathExists : String → Bool
  loads : String → Nat → Bool

inductive FontHandle where
  | truetype (path : String) (size : Nat)
  | default
deriving DecidableEq

/-- One `try` block: load the sizes in order; the first failing
`ImageFont.truetype` call aborts the block, so later sizes stay unassigned
(`none` marks "this slot was not written by this iteration"). -/
def loadAttempt (env : FontEnv) (path : String) : List Nat → List (Option FontHandle)
  | [] => []
  | s :: rest =>
      if env.loads path s then
        some (FontHandle.truetype path s) :: loadAttempt env path rest
      else (s :: rest).map (fun _ => (none : Option FontHandle))

/-- Overwrite old slot values with the slots an attempt did assign. -/
def mergeSlots : List (Option FontHandle) → List (Option FontHandle) → List (Option FontHandle) :=
  List.zipWith (fun o n => match n with | some h => some h | none => o)

/-- The `for path in font_paths` loop over the mutable font variables: an
existing path's attempt is merged into the slots, the loop breaks when the
attempt assigned every slot, and otherwise (`except: continue`, or a missing
path) it moves on to the next candidate. -/
def resolveLoop (env : FontEnv) (sizes : List Nat) : List String → List (Option FontHandle) → List (Option FontHandle)
  | [], slots => slots
  | p :: rest, slots =>
      if env.pathExists p then
        if (loadAttempt env p sizes).all Option.isSome then
          mergeSlots slots (loadAttempt env p sizes)
        else resolveLoop env sizes rest (mergeSlots slots (loadAttempt env p sizes))
      else resolveLoop env sizes rest slots

/-- The whole resolver: run the loop from all-unassigned slots, then apply the
`if font_large is None: ... load_default()` fallback, which tests only the
first slot and, when it fires, sets every slot to the default handle. -/
def resolveFonts (env : FontEnv) (paths : List String) (sizes : List Nat) : List (Option FontHandle) :=
  match resolveLoop env sizes paths (sizes.map fun _ => none) with
  | [] => []
  | first :: rest =>
      if first.isNone then sizes.map (fun _ => some FontHandle.default)
      else first :: rest

/-- Environment where path "A" exists and loads only at size 60, and "B" is
absent: the first load of "A" succeeds, the second fails. -/
def fontEnvCE : FontEnv :=
  { pathExists := fun p => p == "A", loads := fun p s => p == "A" && s == 60 }

/-- Environment where "A" and "B" exist but only "B" loads (at every size). -/
def fontEnvW : FontEnv :=
  { pathExists := fun p => p == "A" || p == "B", loads := fun p _ => p == "B" }

/-- Environment where every path exists but no font ever loads. -/
def fontEnvNone : FontEnv :=
  { pathExists := fun _ => true, loads := fun _ _ => false }

/-! ### Frames -/

/-- A PIL image as far as the claims are concerned: its pixel dimensions and
the background it was created with (`Image.new('RGB', size, bg)`); the
`np.array(img)` conversion returned by every renderer preserves both, and the
pure embedding makes the returned frame immutable by construction. -/
structure PILImage where
  width : Nat
  height : Nat
  background : Option (Int × Int × Int)
deriving DecidableEq

def RESOLUTION : Nat × Nat := (1920, 1080)

def FPS : Nat := 30

/-- COLORS['bg_dark'] from the source. -/
def bg_dark : String := "#0F172A"

def hexToRgbS (s : String) : Option (Int × Int × Int) := hex_to_rgb s.toList

/-- `Image.new('RGB', size, color)`. -/
def imageNew (size : Nat × Nat) (bg : Option (Int × Int × Int)) : PILImage :=
  { width := size.1, height := size.2, background := bg }

/-- `create_text_image` (drawing suppressed; the frame keeps the constructor
data the claims are about).  `size` defaults to RESOLUTION as in the source,
and every caller in `generate_video` uses the default. -/
def create_text_image (text : String) (subtext : Option String := none)
    (font_size : Nat := 60) (size : Nat × Nat := RESOLUTION)
    (bg_color : String := bg_dark) : PILImage :=
  imageNew size (hexToRgbS bg_color)

def create_logo_scene : PILImage := imageNew RESOLUTION (hexToRgbS bg_dark)

def create_terminal_scene : PILImage := imageNew RESOLUTION (hexToRgbS "#1E1E1E")

def create_chat_demo_scene : PILImage := imageNew RESOLUTION (hexToRgbS bg_dark)

def create_comparison_chart : PILImage := imageNew RESOLUTION (hexToRgbS bg_dark)

def create_github_end_scene : PILImage := imageNew RESOLUTION (hexToRgbS bg_dark)

/-! ### The moviepy timeline (generate_video) -/

/-- A moviepy clip as used by the script: a still frame, a duration, and the
fade-in/fade-out effect durations.  `FadeIn`/`FadeOut` act inside the clip's
own time range and do not alter its duration. -/
structure Clip where
  frame : PILImage
  duration : ℚ
  fadeIn : ℚ
  fadeOut : ℚ

def ImageClip (img : PILImage) : Clip :=
  { frame := img, duration := 0, fadeIn := 0, fadeOut := 0 }

def with_duration (c : Clip) (d : ℚ) : Clip := { c with duration := d }

def with_effects (c : Clip) (fi fo : ℚ) : Clip := { c with fadeIn := fi, fadeOut := fo }

/-- The six clips built by `generate_video`, in source order, with the fade
durations left as parameters so that independence from them can be stated. -/
def videoClipsF (fades : Fin 6 → ℚ × ℚ) : List Clip :=
  [with_effects (with_duration (ImageClip
      (create_text_image "你的 AI 助手太烧钱？" (some "每个月几百刀的 API 账单") 80)) 3)
      (fades 0).1 (fades 0).2,
   with_effects (with_duration (ImageClip create_logo_scene) 5) (fades 1).1 (fades 1).2,
   with_effects (with_duration (ImageClip create_terminal_scene) 6) (fades 2).1 (fades 2).2,
   with_effects (with_duration (ImageClip create_chat_demo_scene) 8) (fades 3).1 (fades 3).2,
   with_effects (with_duration (ImageClip create_comparison_chart) 6) (fades 4).1 (fades 4).2,
   with_effects (with_duration (ImageClip create_github_end_scene) 5) (fades 5).1 (fades 5).2]

/-- The fade durations the source passes: FadeIn 0.5 everywhere, FadeOut 0.5
except 1.5 on the closing scene. -/
def sourceFades : Fin 6 → ℚ × ℚ := fun i => if i = 5 then (0.5, 1.5) else (0.5, 0.5)

def videoClips : List Clip := videoClipsF sourceFades

/-- `concatenate_videoclips` places the clips end to end; the total duration
is the sum of the clip durations. -/
def concatenate_duration (clips : List Clip) : ℚ := (clips.map Clip.duration).sum

/-! ### Chat-demo scene (create_chat_demo_scene bubble layout) -/

/-- The literal `messages` list of the source. -/
def chatMessages : List (String × String) :=
  [("user", "帮我写一个 Python 脚本，批量重命名文件"),
   ("ai", "好的，这是一个使用 os 模块的脚本：\n\nimport os\ndef batch_rename(folder):\n    for f in os.listdir(folder):\n        ..."),
   ("user", "昨天说的用户系统方案还有吗？"),
   ("ai", "当然记得！昨天的用户认证方案：\n\n1. JWT Token + Refresh\n2. Redis 存储会话\n3. 支持多端登录\n\n需要展开哪部分？")]

/-- `content.split('\n')` on the character list, accumulator-style. -/
def splitLinesAux : List Char → List Char → List (List Char)
  | [], cur => [cur.reverse]
  | c :: cs, cur =>
      if c = '\n' then cur.reverse :: splitLinesAux cs []
      else splitLinesAux cs (c :: cur)

def splitLines (s : String) : List (List Char) := splitLinesAux s.toList []

/-- `box_height = len(lines) * line_height + padding * 2` with
`line_height = 30`, `padding = 15`. -/
def boxHeightOf (content : String) : Nat := (splitLines content).length * 30 + 15 * 2

/-- One loop iteration of the bubble layout: `y += box_height + 25`. -/
def chatAdvance (y : Nat) (msg : String × String) : Nat := y + (boxHeightOf msg.2 + 25)

/-- The vertical cursor after laying out `msgs`, starting from `y = 120`. -/
def chatYAfter (msgs : List (String × String)) : Nat := msgs.foldl chatAdvance 120

/-! ### Comparison chart (create_comparison_chart bars) -/

/-- The literal `data` rows: (name, tokens, colour, cost). -/
def chartData : List (String × Nat × String × String) :=
  [("Claude Code", 15000, "#EF4444", "$0.45"),
   ("Cursor", 10000, "#F59E0B", "$0.30"),
   ("Synapse AI", 5000, "#10B981", "$0.15 节省60%")]

def max_tokens : Nat := 15000

def bar_max_width : Nat := 800

def chart_start_y : Nat := 250

def chart_gap : Nat := 120

/-- `bar_width = int((tokens / max_tokens) * bar_max_width)`: real division
followed by `int()` truncation, i.e. the floor of the exact rational
`tokens * 800 / 15000` (exact for the magnitudes the script uses). -/
def barWidth (tokens : Nat) : Nat := tokens * bar_max_width / max_tokens

/-- The `(y, bar_width)` pairs produced by the chart loop
(`y = start_y + i * gap`). -/
def chartBars : List (Nat × Nat) :=
  chartData.enum.map (fun e => (chart_start_y + e.1 * chart_gap, barWidth e.2.2.1))

/-! ### Terminal scene (create_terminal_scene line layout) -/

/-- The literal `commands` list of (text, colour) pairs, blanks included. -/
def commands : List (String × String) :=
  [("$ ", "#6CC644"),
   ("git clone https://github.com/Ricardo-M-L/synapse-ai.git", "#F8FAFC"),
   ("", ""),
   ("$ ", "#6CC644"),
   ("cd synapse-ai && npm install", "#F8FAFC"),
   ("", ""),
   ("$ ", "#6CC644"),
   ("npm run build", "#F8FAFC"),
   ("✓ Built successfully in 2.34s", "#10B981"),
   ("", ""),
   ("$ ", "#6CC644"),
   ("npm run cli -- chat", "#F8FAFC"),
   ("", ""),
   ("🧠 Synapse AI 已启动！", "#3B82F6"),
   ("提示: 输入 /help 查看可用命令", "#94A3B8"),
   ("synapse> ", "#F59E0B")]

/-- The source loop as written: `if text:` guards both the draw call and the
`y += 40` advance, so a blank entry changes nothing. -/
def terminalDraw : Nat → List (String × String) → List (String × String × Nat)
  | _, [] => []
  | y, (text, color) :: rest =>
      if text = "" then terminalDraw y rest
      else (text, color, y) :: terminalDraw (y + 40) rest

/-- Modelled from the spec: in the spec's reading of the loop, a blank entry
is skipped visually but the cursor still advances by the 40-pixel pitch. -/
def terminalDrawSpec : Nat → List (String × String) → List (String × String × Nat)
  | _, [] => []
  | y, (text, color) :: rest =>
      if text = "" then terminalDrawSpec (y + 40) rest
      else (text, color, y) :: terminalDrawSpec (y + 40) rest

/-! ### Entry point (__main__) -/

/-- Observable outcome of the process: exit status, the printed error message
(if any), and whether a traceback was printed. -/
structure ExitReport where
  exitCode : Nat
  printedMessage : Option String
  printedTrace : Bool
deriving DecidableEq

/-- The `if __name__ == "__main__"` block: run the pipeline inside the single
top-level `try`; on success fall off the end (status 0), on an exception print
the message and the full traceback and `sys.exit(1)`. -/
def topLevelMain (pipeline : Except String Unit) : ExitReport :=
  match pipeline with
  | Except.ok _ => { exitCode := 0, printedMessage := none, printedTrace := false }
  | Except.error e => { exitCode := 1, printedMessage := some e, printedTrace := true }

/-! ### Lemmas about hex parsing -/

lemma hexCharsProps : ∀ c ∈ hexChars, c ≠ '#' ∧ c ≠ '+' ∧ c ≠ '-' ∧ c ≠ '_' ∧
    c ≠ 'x' ∧ c ≠ 'X' ∧ Char.isWhitespace c = false ∧ hexDigitVal c < 16 := by decide

lemma hexProps {c : Char} (h : isHexDigit c = true) :
    c ≠ '#' ∧ c ≠ '+' ∧ c ≠ '-' ∧ c ≠ '_' ∧ c ≠ 'x' ∧ c ≠ 'X' ∧
    Char.isWhitespace c = false ∧ hexDigitVal c < 16 :=
  hexCharsProps c (by simpa [isHexDigit] using h)

lemma upperCharsProps : ∀ c ∈ upperDigits,
    isHexDigit c = true ∧ toHexDigitU (hexDigitVal c) = c := by decide

lemma upperProps {c : Char} (h : isUpperHexDigit c = true) :
    isHexDigit c = true ∧ toHexDigitU (hexDigitVal c) = c :=
  upperCharsProps c (by simpa [isUpperHexDigit] using h)

lemma lowerCharsProps : ∀ c ∈ lowerDigits,
    isHexDigit c = true ∧ toHexDigitL (hexDigitVal c) = c := by decide

lemma lowerProps {c : Char} (h : isLowerHexDigit c = true) :
    isHexDigit c = true ∧ toHexDigitL (hexDigitVal c) = c :=
  lowerCharsProps c (by simpa [isLowerHexDigit] using h)

lemma toHexDigitU_spec : ∀ m : Nat, m < 16 →
    isHexDigit (toHexDigitU m) = true ∧ isUpperHexDigit (toHexDigitU m) = true ∧
    hexDigitVal (toHexDigitU m) = m := by decide

lemma toHexDigitL_spec : ∀ m : Nat, m < 16 →
    isHexDigit (toHexDigitL m) = true ∧ isLowerHexDigit (toHexDigitL m) = true ∧
    hexDigitVal (toHexDigitL m) = m := by decide

/-- `int(s, 16)` on a two-character string of hex digits. -/
lemma pyIntHex_pair {a b : Char} (ha : isHexDigit a = true) (hb : isHexDigit b = true) :
    pyIntHex [a, b] = some (Int.ofNat (hexDigitVal a * 16 + hexDigitVal b)) := by
  obtain ⟨-, ha2, ha3, -, -, -, ha7, -⟩ := hexProps ha
  obtain ⟨-, -, -, hb4, hb5, hb6, hb7, -⟩ := hexProps hb
  have hs : stripChars [a, b] = [a, b] := by
    simp [stripChars, List.dropWhile_cons, ha7, hb7]
  rw [pyIntHex, hs]
  simp [pyIntHexCore, pyHexMagnitude, hexRun, hexRest, ha, hb, ha2, ha3, hb4, hb5, hb6]

lemma hexStripped_cons {c : Char} (hc : c ≠ '#') (l : List Char) :
    hexStripped (c :: l) = c :: l := by
  have hb : (c == '#') = false := beq_eq_false_iff_ne.mpr hc
  simp [hexStripped, List.dropWhile_cons, hb]

lemma hexStripped_hash (l : List Char) : hexStripped ('#' :: l) = hexStripped l := by
  simp [hexStripped, List.dropWhile_cons]

lemma slicePair_at_zero (a b : Char) (l : List Char) : slicePair (a :: b :: l) 0 = [a, b] := rfl

lemma slicePair_at_two (a b c d : Char) (l : List Char) :
    slicePair (a :: b :: c :: d :: l) 2 = [c, d] := rfl

lemma slicePair_at_four (a b c d e f : Char) (l : List Char) :
    slicePair (a :: b :: c :: d :: e :: f :: l) 4 = [e, f] := rfl

/-- Parsing a string whose `lstrip('#')` is six hex digits. -/
lemma hex_to_rgb_of_stripped {s : List Char} {c1 c2 c3 c4 c5 c6 : Char}
    (hst : hexStripped s = [c1, c2, c3, c4, c5, c6])
    (h1 : isHexDigit c1 = true) (h2 : isHexDigit c2 = true)
    (h3 : isHexDigit c3 = true) (h4 : isHexDigit c4 = true)
    (h5 : isHexDigit c5 = true) (h6 : isHexDigit c6 = true) :
    hex_to_rgb s = some (Int.ofNat (hexDigitVal c1 * 16 + hexDigitVal c2),
                         Int.ofNat (hexDigitVal c3 * 16 + hexDigitVal c4),
                         Int.ofNat (hexDigitVal c5 * 16 + hexDigitVal c6)) := by
  unfold hex_to_rgb
  rw [hst]
  rw [slicePair_at_zero, slicePair_at_two, slicePair_at_four,
      pyIntHex_pair h1 h2, pyIntHex_pair h3 h4, pyIntHex_pair h5 h6]

lemma exists_six (s : List Char) (h : s.length = 6) :
    ∃ a b c d e f, s = [a, b, c, d, e, f] := by
  rcases s with _ | ⟨a, _ | ⟨b, _ | ⟨c, _ | ⟨d, _ | ⟨e, _ | ⟨f, _ | ⟨g, t⟩⟩⟩⟩⟩⟩⟩
  · simp at h
  · simp at h
  · simp at h
  · simp at h
  · simp at h
  · simp at h
  · exact ⟨a, b, c, d, e, f, rfl⟩
  · simp only [List.length_cons] at h
    omega

lemma hexDigitVal_lt {c : Char} (h : isHexDigit c = true) : hexDigitVal c < 16 :=
  (hexProps h).2.2.2.2.2.2.2

lemma hex_ne_hash {c : Char} (h : isHexDigit c = true) : c ≠ '#' := (hexProps h).1

/-- Range part of C6: every valid six-digit code, with or without '#', parses
to a triple of bytes. -/
lemma hexRGB_range : ∀ s : List Char, validHex6 s = true →
    ∃ r g b : Nat, r ≤ 255 ∧ g ≤ 255 ∧ b ≤ 255 ∧
      hex_to_rgb s = some (Int.ofNat r, Int.ofNat g, Int.ofNat b) ∧
      hex_to_rgb ('#' :: s) = some (Int.ofNat r, Int.ofNat g, Int.ofNat b) := by
  intro s hv
  have hv2 : s.length = 6 ∧ ∀ c ∈ s, isHexDigit c = true := by
    simpa [validHex6, List.all_eq_true] using hv
  obtain ⟨c1, c2, c3, c4, c5, c6, rfl⟩ := exists_six s hv2.1
  have h1 := hv2.2 c1 (by simp)
  have h2 := hv2.2 c2 (by simp)
  have h3 := hv2.2 c3 (by simp)
  have h4 := hv2.2 c4 (by simp)
  have h5 := hv2.2 c5 (by simp)
  have h6 := hv2.2 c6 (by simp)
  have hst : hexStripped [c1, c2, c3, c4, c5, c6] = [c1, c2, c3, c4, c5, c6] :=
    hexStripped_cons (hex_ne_hash h1) _
  have hst2 : hexStripped ('#' :: [c1, c2, c3, c4, c5, c6]) = [c1, c2, c3, c4, c5, c6] := by
    rw [hexStripped_hash, hst]
  refine ⟨hexDigitVal c1 * 16 + hexDigitVal c2, hexDigitVal c3 * 16 + hexDigitVal c4,
          hexDigitVal c5 * 16 + hexDigitVal c6, ?_, ?_, ?_,
          hex_to_rgb_of_stripped hst h1 h2 h3 h4 h5 h6,
          hex_to_rgb_of_stripped hst2 h1 h2 h3 h4 h5 h6⟩
  · have := hexDigitVal_lt h1; have := hexDigitVal_lt h2; omega
  · have := hexDigitVal_lt h3; have := hexDigitVal_lt h4; omega
  · have := hexDigitVal_lt h5; have := hexDigitVal_lt h6; omega

/-- Uppercase encoding is a right inverse of parsing. -/
lemma hexRGB_encU : ∀ r g b : Nat, r ≤ 255 → g ≤ 255 → b ≤ 255 →
    upperHex6 (encodeRGBU r g b) = true ∧
    hex_to_rgb (encodeRGBU r g b) = some (Int.ofNat r, Int.ofNat g, Int.ofNat b) := by
  intro r g b hr hg hb
  have d1 := toHexDigitU_spec (r / 16) (by omega)
  have d2 := toHexDigitU_spec (r % 16) (by omega)
  have d3 := toHexDigitU_spec (g / 16) (by omega)
  have d4 := toHexDigitU_spec (g % 16) (by omega)
  have d5 := toHexDigitU_spec (b / 16) (by omega)
  have d6 := toHexDigitU_spec (b % 16) (by omega)
  have he : encodeRGBU r g b =
      [toHexDigitU (r / 16), toHexDigitU (r % 16), toHexDigitU (g / 16),
       toHexDigitU (g % 16), toHexDigitU (b / 16), toHexDigitU (b % 16)] := rfl
  constructor
  · rw [he]
    simp [upperHex6, d1.2.1, d2.2.1, d3.2.1, d4.2.1, d5.2.1, d6.2.1]
  · rw [he, hex_to_rgb_of_stripped (hexStripped_cons (hex_ne_hash d1.1) _)
          d1.1 d2.1 d3.1 d4.1 d5.1 d6.1,
        d1.2.2, d2.2.2, d3.2.2, d4.2.2, d5.2.2, d6.2.2]
    have e1 : r / 16 * 16 + r % 16 = r := by omega
    have e2 : g / 16 * 16 + g % 16 = g := by omega
    have e3 : b / 16 * 16 + b % 16 = b := by omega
    rw [e1, e2, e3]

/-- Uppercase encoding is a left inverse of parsing. -/
lemma hexRGB_decU : ∀ s : List Char, upperHex6 s = true →
    ∃ r g b : Nat, hex_to_rgb s = some (Int.ofNat r, Int.ofNat g, Int.ofNat b) ∧
      encodeRGBU r g b = s := by
  intro s hs
  have hs2 : s.length = 6 ∧ ∀ c ∈ s, isUpperHexDigit c = true := by
    simpa [upperHex6, List.all_eq_true] using hs
  obtain ⟨c1, c2, c3, c4, c5, c6, rfl⟩ := exists_six s hs2.1
  have u1 := upperProps (hs2.2 c1 (by simp))
  have u2 := upperProps (hs2.2 c2 (by simp))
  have u3 := upperProps (hs2.2 c3 (by simp))
  have u4 := upperProps (hs2.2 c4 (by simp))
  have u5 := upperProps (hs2.2 c5 (by simp))
  have u6 := upperProps (hs2.2 c6 (by simp))
  refine ⟨hexDigitVal c1 * 16 + hexDigitVal c2, hexDigitVal c3 * 16 + hexDigitVal c4,
          hexDigitVal c5 * 16 + hexDigitVal c6,
          hex_to_rgb_of_stripped (hexStripped_cons (hex_ne_hash u1.1) _)
            u1.1 u2.1 u3.1 u4.1 u5.1 u6.1, ?_⟩
  have q1 : (hexDigitVal c1 * 16 + hexDigitVal c2) / 16 = hexDigitVal c1 := by
    have := hexDigitVal_lt u2.1; omega
  have m1 : (hexDigitVal c1 * 16 + hexDigitVal c2) % 16 = hexDigitVal c2 := by
    have := hexDigitVal_lt u2.1; omega
  have q2 : (hexDigitVal c3 * 16 + hexDigitVal c4) / 16 = hexDigitVal c3 := by
    have := hexDigitVal_lt u4.1; omega
  have m2 : (hexDigitVal c3 * 16 + hexDigitVal c4) % 16 = hexDigitVal c4 := by
    have := hexDigitVal_lt u4.1; omega
  have q3 : (hexDigitVal c5 * 16 + hexDigitVal c6) / 16 = hexDigitVal c5 := by
    have := hexDigitVal_lt u6.1; omega
  have m3 : (hexDigitVal c5 * 16 + hexDigitVal c6) % 16 = hexDigitVal c6 := by
    have := hexDigitVal_lt u6.1; omega
  simp only [encodeRGBU, encodePairU, List.cons_append, List.nil_append]
  rw [q1, m1, q2, m2, q3, m3, u1.2, u2.2, u3.2, u4.2, u5.2, u6.2]

/-- Lowercase encoding is a right inverse of parsing. -/
lemma hexRGB_encL : ∀ r g b : Nat, r ≤ 255 → g ≤ 255 → b ≤ 255 →
    lowerHex6 (encodeRGBL r g b) = true ∧
    hex_to_rgb (encodeRGBL r g b) = some (Int.ofNat r, Int.ofNat g, Int.ofNat b) := by
  intro r g b hr hg hb
  have d1 := toHexDigitL_spec (r / 16) (by omega)
  have d2 := toHexDigitL_spec (r % 16) (by omega)
  have d3 := toHexDigitL_spec (g / 16) (by omega)
  have d4 := toHexDigitL_spec (g % 16) (by omega)
  have d5 := toHexDigitL_spec (b / 16) (by omega)
  have d6 := toHexDigitL_spec (b % 16) (by omega)
  have he : encodeRGBL r g b =
      [toHexDigitL (r / 16), toHexDigitL (r % 16), toHexDigitL (g / 16),
       toHexDigitL (g % 16), toHexDigitL (b / 16), toHexDigitL (b % 16)] := rfl
  constructor
  · rw [he]
    simp [lowerHex6, d1.2.1, d2.2.1, d3.2.1, d4.2.1, d5.2.1, d6.2.1]
  · rw [he, hex_to_rgb_of_stripped (hexStripped_cons (hex_ne_hash d1.1) _)
          d1.1 d2.1 d3.1 d4.1 d5.1 d6.1,
        d1.2.2, d2.2.2, d3.2.2, d4.2.2, d5.2.2, d6.2.2]
    have e1 : r / 16 * 16 + r % 16 = r := by omega
    have e2 : g / 16 * 16 + g % 16 = g := by omega
    have e3 : b / 16 * 16 + b % 16 = b := by omega
    rw [e1, e2, e3]

/-- Lowercase encoding is a left inverse of parsing. -/
lemma hexRGB_decL : ∀ s : List Char, lowerHex6 s = true →
    ∃ r g b : Nat, hex_to_rgb s = some (Int.ofNat r, Int.ofNat g, Int.ofNat b) ∧
      encodeRGBL r g b = s := by
  intro s hs
  have hs2 : s.length = 6 ∧ ∀ c ∈ s, isLowerHexDigit c = true := by
    simpa [lowerHex6, List.all_eq_true] using hs
  obtain ⟨c1, c2, c3, c4, c5, c6, rfl⟩ := exists_six s hs2.1
  have u1 := lowerProps (hs2.2 c1 (by simp))
  have u2 := lowerProps (hs2.2 c2 (by simp))
  have u3 := lowerProps (hs2.2 c3 (by simp))
  have u4 := lowerProps (hs2.2 c4 (by simp))
  have u5 := lowerProps (hs2.2 c5 (by simp))
  have u6 := lowerProps (hs2.2 c6 (by simp))
  refine ⟨hexDigitVal c1 * 16 + hexDigitVal c2, hexDigitVal c3 * 16 + hexDigitVal c4,
          hexDigitVal c5 * 16 + hexDigitVal c6,
          hex_to_rgb_of_stripped (hexStripped_cons (hex_ne_hash u1.1) _)
            u1.1 u2.1 u3.1 u4.1 u5.1 u6.1, ?_⟩
  have q1 : (hexDigitVal c1 * 16 + hexDigitVal c2) / 16 = hexDigitVal c1 := by
    have := hexDigitVal_lt u2.1; omega
  have m1 : (hexDigitVal c1 * 16 + hexDigitVal c2) % 16 = hexDigitVal c2 := by
    have := hexDigitVal_lt u2.1; omega
  have q2 : (hexDigitVal c3 * 16 + hexDigitVal c4) / 16 = hexDigitVal c3 := by
    have := hexDigitVal_lt u4.1; omega
  have m2 : (hexDigitVal c3 * 16 + hexDigitVal c4) % 16 = hexDigitVal c4 := by
    have := hexDigitVal_lt u4.1; omega
  have q3 : (hexDigitVal c5 * 16 + hexDigitVal c6) / 16 = hexDigitVal c5 := by
    have := hexDigitVal_lt u6.1; omega
  have m3 : (hexDigitVal c5 * 16 + hexDigitVal c6) % 16 = hexDigitVal c6 := by
    have := hexDigitVal_lt u6.1; omega
  simp only [encodeRGBL, encodePairL, List.cons_append, List.nil_append]
  rw [q1, m1, q2, m2, q3, m3, u1.2, u2.2, u3.2, u4.2, u5.2, u6.2]

/-! ### Lemmas about font resolution -/

lemma loadAttempt_length (env : FontEnv) (path : String) :
    ∀ sizes : List Nat, (loadAttempt env path sizes).length = sizes.length := by
  intro sizes
  induction sizes with
  | nil => rfl
  | cons s rest ih =>
      by_cases h : env.loads path s
      · simp [loadAttempt, h, ih]
      · simp [loadAttempt, h]

lemma loadAttempt_full (env : FontEnv) (path : String) :
    ∀ sizes : List Nat, (∀ s ∈ sizes, env.loads path s = true) →
      loadAttempt env path sizes = sizes.map (fun s => some (FontHandle.truetype path s)) := by
  intro sizes
  induction sizes with
  | nil => intro _; rfl
  | cons s rest ih =>
      intro h
      have hs : env.loads path s = true := h s (by simp)
      simp [loadAttempt, hs, ih (fun x hx => h x (by simp [hx]))]

lemma loadAttempt_all_isSome (env : FontEnv) (path : String) :
    ∀ sizes : List Nat, (loadAttempt env path sizes).all Option.isSome = true →
      ∀ s ∈ sizes, env.loads path s = true := by
  intro sizes
  induction sizes with
  | nil => intro _ s hs; simp at hs
  | cons s rest ih =>
      intro hall x hx
      by_cases h : env.loads path s
      · simp only [loadAttempt, h, if_true, List.all_cons, Bool.and_eq_true] at hall
        rcases List.mem_cons.mp hx with rfl | hx2
        · exact h
        · exact ih hall.2 x hx2
      · simp [loadAttempt, h] at hall

lemma mergeSlots_cons (o n : Option FontHandle) (os ns : List (Option FontHandle)) :
    mergeSlots (o :: os) (n :: ns) =
      (match n with | some h => some h | none => o) :: mergeSlots os ns := rfl

lemma mergeSlots_length (a b : List (Option FontHandle)) :
    (mergeSlots a b).length = min a.length b.length := List.length_zipWith _ _ _

lemma mergeSlots_of_some : ∀ old new : List (Option FontHandle),
    old.length = new.length → (∀ x ∈ new, x.isSome = true) → mergeSlots old new = new := by
  intro old
  induction old with
  | nil =>
      intro new hlen _
      cases new with
      | nil => rfl
      | cons n ns => simp at hlen
  | cons o os ih =>
      intro new hlen hsome
      cases new with
      | nil => rfl
      | cons n ns =>
          rcases n with _ | h
          · have := hsome none (by simp)
            simp at this
          · rw [mergeSlots_cons, ih ns (by simpa using hlen) (fun x hx => hsome x (by simp [hx]))]

lemma mergeSlots_of_none : ∀ old new : List (Option FontHandle),
    old.length = new.length → (∀ x ∈ new, x = none) → mergeSlots old new = old := by
  intro old
  induction old with
  | nil =>
      intro new _ _
      rfl
  | cons o os ih =>
      intro new hlen hnone
      cases new with
      | nil => simp at hlen
      | cons n ns =>
          have hn : n = none := hnone n (by simp)
          subst hn
          rw [mergeSlots_cons, ih ns (by simpa using hlen) (fun x hx => hnone x (by simp [hx]))]

/-- If `p` exists and loads at every size, and no earlier path does, the loop
ends with exactly `p`'s handles in every slot. -/
lemma resolveLoop_finds_first (env : FontEnv) (sizes : List Nat) (p : String)
    (hp : env.pathExists p = true) (hl : ∀ s ∈ sizes, env.loads p s = true) :
    ∀ (pre : List String) (post : List String) (slots : List (Option FontHandle)),
      (∀ q ∈ pre, ¬(env.pathExists q = true ∧ ∀ s ∈ sizes, env.loads q s = true)) →
      slots.length = sizes.length →
      resolveLoop env sizes (pre ++ p :: post) slots =
        sizes.map (fun s => some (FontHandle.truetype p s)) := by
  intro pre
  induction pre with
  | nil =>
      intro post slots _ hlen
      have hatt := loadAttempt_full env p sizes hl
      have hall : (loadAttempt env p sizes).all Option.isSome = true := by
        rw [hatt]; simp
      simp only [List.nil_append, resolveLoop, hp, if_true, hall]
      rw [hatt]
      exact mergeSlots_of_some slots _ (by rw [List.length_map]; exact hlen) (by simp)
  | cons q pre ih =>
      intro post slots hpre hlen
      have hq := hpre q (by simp)
      by_cases hqe : env.pathExists q
      · have hnotfull : ¬ ∀ s ∈ sizes, env.loads q s = true := fun hfull => hq ⟨hqe, hfull⟩
        have hnall : (loadAttempt env q sizes).all Option.isSome = false := by
          cases hca : (loadAttempt env q sizes).all Option.isSome
          · rfl
          · exact absurd (loadAttempt_all_isSome env q sizes hca) hnotfull
        simp only [List.cons_append, resolveLoop, hqe, if_true, hnall, Bool.false_eq_true,
          if_false]
        apply ih post _ (fun x hx => hpre x (by simp [hx]))
        rw [mergeSlots_length, loadAttempt_length, hlen]
        simp
      · have hqe2 : env.pathExists q = false := by
          cases hb : env.pathExists q
          · rfl
          · exact absurd hb hqe
        simp only [List.cons_append, resolveLoop, hqe2, Bool.false_eq_true, if_false]
        exact ih post slots (fun x hx => hpre x (by simp [hx])) hlen

/-- If no path exists and loads at the first size, every iteration leaves the
slots untouched. -/
lemma resolveLoop_no_first_load (env : FontEnv) (s0 : Nat) (rest : List Nat) :
    ∀ (paths : List String) (slots : List (Option FontHandle)),
      (∀ q ∈ paths, ¬(env.pathExists q = true ∧ env.loads q s0 = true)) →
      slots.length = rest.length + 1 →
      resolveLoop env (s0 :: rest) paths slots = slots := by
  intro paths
  induction paths with
  | nil => intro slots _ _; rfl
  | cons q qs ih =>
      intro slots hq hlen
      by_cases hqe : env.pathExists q
      · have hload : env.loads q s0 = false := by
          cases hb : env.loads q s0
          · rfl
          · exact absurd ⟨hqe, hb⟩ (hq q (by simp))
        have hatt : loadAttempt env q (s0 :: rest) = (s0 :: rest).map (fun _ => none) := by
          simp [loadAttempt, hload]
        have hnall : (loadAttempt env q (s0 :: rest)).all Option.isSome = false := by
          rw [hatt]; simp
        have hmerge : mergeSlots slots (loadAttempt env q (s0 :: rest)) = slots := by
          rw [hatt]
          exact mergeSlots_of_none slots _ (by rw [List.length_map]; simpa using hlen) (by simp)
        simp only [resolveLoop, hqe, if_true, hnall, Bool.false_eq_true, if_false]
        rw [hmerge]
        exact ih slots (fun x hx => hq x (by simp [hx])) hlen
      · have hqe2 : env.pathExists q = false := by
          cases hb : env.pathExists q
          · rfl
          · exact absurd hb hqe
        simp only [resolveLoop, hqe2, Bool.false_eq_true, if_false]
        exact ih slots (fun x hx => hq x (by simp [hx])) hlen

/-- Foldl form of the bubble layout equals start offset plus summed heights. -/
lemma chatYAfter_foldl : ∀ (msgs : List (String × String)) (y : Nat),
    msgs.foldl chatAdvance y = y + (msgs.map (fun m => boxHeightOf m.2 + 25)).sum := by
  intro msgs
  induction msgs with
  | nil => intro y; simp
  | cons m rest ih =>
      intro y
      simp only [List.foldl_cons, List.map_cons, List.sum_cons, chatAdvance]
      rw [ih]
      omega

/-! ### Claim theorems -/

/-- C1: the claim says a blank entry in the terminal scene still advances the
vertical cursor by the 40-pixel pitch.  The source advances the cursor only
inside `if text:`, so a blank entry changes nothing: on the fixed `commands`
list the code places the twelve drawn lines at 80..520 in steps of 40 with no
gaps, while the spec's reading (blanks advance) would place them with gaps at
200, 320, .., 680.  The two layouts differ, exhibiting the code/spec
divergence at the first blank entry (index 2). -/
theorem terminal_blank_entries_do_not_advance_cursor :
    (terminalDraw 80 commands).map (fun e => e.2.2) =
      [80, 120, 160, 200, 240, 280, 320, 360, 400, 440, 480, 520]
  ∧ (terminalDrawSpec 80 commands).map (fun e => e.2.2) =
      [80, 120, 200, 240, 320, 360, 400, 480, 520, 600, 640, 680]
  ∧ terminalDraw 80 commands ≠ terminalDrawSpec 80 commands := by
  refine ⟨by decide, by decide, by decide⟩

/-- C2 counterexample: the claim says that when no candidate path exists and
loads at every size, the default handle is returned for every size.  In
`fontEnvCE`, "A" exists but loads only at 60 and "B" is absent, so no
candidate succeeds at every size; yet the resolver returns the leftover
partial handle from "A" at size 60 and leaves size 30 unassigned — because
the `except: continue` keeps handles assigned before the failing call, and
the default fallback only tests whether the first handle is still missing. -/
theorem resolveFonts_residue_counterexample :
    resolveFonts fontEnvCE ["A", "B"] [60, 30] = [some (FontHandle.truetype "A" 60), none]
  ∧ (¬ ∃ p, p ∈ (["A", "B"] : List String) ∧ fontEnvCE.pathExists p = true ∧
      ∀ s ∈ ([60, 30] : List Nat), fontEnvCE.loads p s = true)
  ∧ resolveFonts fontEnvCE ["A", "B"] [60, 30] ≠
      [some FontHandle.default, some FontHandle.default] := by
  refine ⟨by decide, by decide, by decide⟩

/-- C2 (amended): the resolver returns the full set of sized handles from the
first candidate path that exists and loads at every requested size,
regardless of what earlier candidates did; and when no candidate path exists
and loads at the *first* requested size, it returns the default handle for
every requested size (never aborting).  (When some candidate loads the first
size but none succeeds at every size, leftover partial handles survive — the
counterexample.) -/
theorem resolveFonts_first_success_or_default :
    (∀ (env : FontEnv) (pre : List String) (p : String) (post : List String) (sizes : List Nat),
      (∀ q ∈ pre, ¬(env.pathExists q = true ∧ ∀ s ∈ sizes, env.loads q s = true)) →
      env.pathExists p = true →
      (∀ s ∈ sizes, env.loads p s = true) →
      resolveFonts env (pre ++ p :: post) sizes =
        sizes.map (fun s => some (FontHandle.truetype p s)))
  ∧ (∀ (env : FontEnv) (paths : List String) (s0 : Nat) (rest : List Nat),
      (∀ q ∈ paths, ¬(env.pathExists q = true ∧ env.loads q s0 = true)) →
      resolveFonts env paths (s0 :: rest) =
        (s0 :: rest).map (fun _ => some FontHandle.default)) := by
  constructor
  · intro env pre p post sizes hpre hp hl
    unfold resolveFonts
    rw [resolveLoop_finds_first env sizes p hp hl pre post _ hpre (by simp)]
    cases sizes with
    | nil => rfl
    | cons s0 srest => rfl
  · intro env paths s0 rest hq
    unfold resolveFonts
    rw [resolveLoop_no_first_load env s0 rest paths _ hq (by simp)]
    rfl

/-- Witness for C2 at concrete inputs: in `fontEnvW` the partial-free path
"B" wins after "A" is passed over, and in `fontEnvNone` (nothing ever loads)
every slot falls back to the default handle. -/
theorem resolveFonts_first_success_or_default_witness :
    resolveFonts fontEnvW (["A"] ++ "B" :: []) [60, 30] =
      ([60, 30] : List Nat).map (fun s => some (FontHandle.truetype "B" s))
  ∧ resolveFonts fontEnvNone ["A", "B"] (60 :: [30]) =
      (60 :: [30] : List Nat).map (fun _ => some FontHandle.default) :=
  ⟨resolveFonts_first_success_or_default.1 fontEnvW ["A"] "B" [] [60, 30]
      (by decide) (by decide) (by decide),
   resolveFonts_first_success_or_default.2 fontEnvNone ["A", "B"] 60 [30] (by decide)⟩

/-- C3: the six clips carry durations 3, 5, 6, 8, 6, 5 in scene order, the
concatenated timeline lasts exactly 33 seconds = 990 frames at 30 fps, and
this holds for every choice of the per-clip fade durations. -/
theorem video_total_duration_33s_990frames :
    (∀ fades : Fin 6 → ℚ × ℚ,
      (videoClipsF fades).map Clip.duration = [3, 5, 6, 8, 6, 5] ∧
      concatenate_duration (videoClipsF fades) = 33 ∧
      concatenate_duration (videoClipsF fades) * (FPS : ℚ) = 990)
  ∧ concatenate_duration videoClips = 33 := by
  have hmap : ∀ fades : Fin 6 → ℚ × ℚ,
      (videoClipsF fades).map Clip.duration = [3, 5, 6, 8, 6, 5] := fun _ => rfl
  have hdur : ∀ fades : Fin 6 → ℚ × ℚ, concatenate_duration (videoClipsF fades) = 33 := by
    intro fades
    rw [concatenate_duration, hmap]
    norm_num
  exact ⟨fun fades => ⟨hmap fades, hdur fades, by rw [hdur]; norm_num [FPS]⟩, hdur sourceFades⟩

/-- C4: a bubble's height is its line count times 30 plus twice the padding
15; after any message sequence the cursor is the 120 start offset plus the
sum of (height + 25) over the bubbles; on the source's literal messages
(line counts 1, 6, 1, 7) the final cursor is 790. -/
theorem chat_cursor_accumulates_heights :
    (∀ content : String, boxHeightOf content = (splitLines content).length * 30 + 2 * 15)
  ∧ (∀ msgs : List (String × String),
      chatYAfter msgs = 120 + (msgs.map (fun m => boxHeightOf m.2 + 25)).sum)
  ∧ chatYAfter chatMessages = 790
  ∧ chatMessages.map (fun m => (splitLines m.2).length) = [1, 6, 1, 7] := by
  refine ⟨fun content => by simp only [boxHeightOf], fun msgs => chatYAfter_foldl msgs 120,
    by decide, by decide⟩

/-- C5: the bar width is the `int()`-truncated linear map
`value * 800 / 15000` (so `q * 15000 ≤ v * 800 < (q+1) * 15000`); the maximal
value 15000 gives exactly the maximal width 800, value 0 gives 0, and the
three chart rows give bars 800, 533, 266 at y = 250, 370, 490. -/
theorem chart_bar_width_linear :
    barWidth max_tokens = bar_max_width
  ∧ barWidth 0 = 0
  ∧ (∀ v : Nat, barWidth v * max_tokens ≤ v * bar_max_width ∧
      v * bar_max_width < (barWidth v + 1) * max_tokens)
  ∧ chartBars = [(250, 800), (370, 533), (490, 266)] := by
  refine ⟨by decide, by decide, ?_, by decide⟩
  intro v
  simp only [barWidth, max_tokens, bar_max_width]
  constructor <;> omega

/-- C6: every valid six-hex-digit code, with or without a leading '#', parses
to an ordered triple of integers in [0, 255]; restricted to canonical
all-uppercase (resp. all-lowercase) codes the map is a bijection onto byte
triples, witnessed by the explicit two-sided inverse `encodeRGBU`
(resp. `encodeRGBL`). -/
theorem hex_to_rgb_valid_range_and_bijection :
    (∀ s : List Char, validHex6 s = true →
      ∃ r g b : Nat, r ≤ 255 ∧ g ≤ 255 ∧ b ≤ 255 ∧
        hex_to_rgb s = some (Int.ofNat r, Int.ofNat g, Int.ofNat b) ∧
        hex_to_rgb ('#' :: s) = some (Int.ofNat r, Int.ofNat g, Int.ofNat b))
  ∧ (∀ r g b : Nat, r ≤ 255 → g ≤ 255 → b ≤ 255 →
      upperHex6 (encodeRGBU r g b) = true ∧
      hex_to_rgb (encodeRGBU r g b) = some (Int.ofNat r, Int.ofNat g, Int.ofNat b))
  ∧ (∀ s : List Char, upperHex6 s = true →
      ∃ r g b : Nat, hex_to_rgb s = some (Int.ofNat r, Int.ofNat g, Int.ofNat b) ∧
        encodeRGBU r g b = s)
  ∧ (∀ r g b : Nat, r ≤ 255 → g ≤ 255 → b ≤ 255 →
      lowerHex6 (encodeRGBL r g b) = true ∧
      hex_to_rgb (encodeRGBL r g b) = some (Int.ofNat r, Int.ofNat g, Int.ofNat b))
  ∧ (∀ s : List Char, lowerHex6 s = true →
      ∃ r g b : Nat, hex_to_rgb s = some (Int.ofNat r, Int.ofNat g, Int.ofNat b) ∧
        encodeRGBL r g b = s) :=
  ⟨hexRGB_range, hexRGB_encU, hexRGB_decU, hexRGB_encL, hexRGB_decL⟩

/-- Witness for C6 at concrete inputs: "3B82F6" parses inside [0,255]³ with
and without '#'; (59,130,246) round-trips through the uppercase encoding;
"0f172a" round-trips through the lowercase encoding. -/
theorem hex_to_rgb_valid_range_and_bijection_witness :
    (∃ r g b : Nat, r ≤ 255 ∧ g ≤ 255 ∧ b ≤ 255 ∧
      hex_to_rgb ("3B82F6".toList) = some (Int.ofNat r, Int.ofNat g, Int.ofNat b) ∧
      hex_to_rgb ('#' :: "3B82F6".toList) = some (Int.ofNat r, Int.ofNat g, Int.ofNat b))
  ∧ (upperHex6 (encodeRGBU 59 130 246) = true ∧
      hex_to_rgb (encodeRGBU 59 130 246) = some (Int.ofNat 59, Int.ofNat 130, Int.ofNat 246))
  ∧ (∃ r g b : Nat,
      hex_to_rgb ("0f172a".toList) = some (Int.ofNat r, Int.ofNat g, Int.ofNat b) ∧
      encodeRGBL r g b = "0f172a".toList) :=
  ⟨hex_to_rgb_valid_range_and_bijection.1 ("3B82F6".toList) (by decide),
   hex_to_rgb_valid_range_and_bijection.2.1 59 130 246 (by decide) (by decide) (by decide),
   hex_to_rgb_valid_range_and_bijection.2.2.2.2 ("0f172a".toList) (by decide)⟩

/-- C7 counterexample: the claim says every malformed colour code (not six hex
digits after one optional leading '#') raises a parse error, but "##3B82F6"
(two markers) and "ABCDEF00" (eight characters) are malformed in that sense
and are both accepted without error. -/
theorem hex_to_rgb_malformed_accepted_counterexample :
    specWellFormedColor ("##3B82F6".toList) = false
  ∧ hex_to_rgb ("##3B82F6".toList) = some (59, 130, 246)
  ∧ specWellFormedColor ("ABCDEF00".toList) = false
  ∧ hex_to_rgb ("ABCDEF00".toList) = some (171, 205, 239) := by
  refine ⟨by decide, by decide, by decide, by decide⟩

/-- C7 (amended): a malformed code fails — with the error propagating to the
caller as an unrecovered parse failure — whenever one of the three
two-character slices taken after stripping the leading '#' characters is not
parseable hexadecimal; e.g. "#GGGGGG" and the empty string fail. -/
theorem hex_to_rgb_bad_slice_errors :
    (∀ s : List Char,
      pyIntHex (slicePair (hexStripped s) 0) = none ∨
      pyIntHex (slicePair (hexStripped s) 2) = none ∨
      pyIntHex (slicePair (hexStripped s) 4) = none →
      hex_to_rgb s = none)
  ∧ hex_to_rgb ("#GGGGGG".toList) = none
  ∧ hex_to_rgb ("".toList) = none := by
  refine ⟨?_, by decide, by decide⟩
  intro s h
  unfold hex_to_rgb
  cases h0 : pyIntHex (slicePair (hexStripped s) 0) <;>
    cases h1 : pyIntHex (slicePair (hexStripped s) 2) <;>
      cases h2 : pyIntHex (slicePair (hexStripped s) 4) <;>
        simp_all

/-- Witness for C7 at a concrete input: "ZZZZZZ" has an unparseable first
slice and the parse failure reaches the caller. -/
theorem hex_to_rgb_bad_slice_errors_witness :
    hex_to_rgb ("ZZZZZZ".toList) = none :=
  hex_to_rgb_bad_slice_errors.1 ("ZZZZZZ".toList) (Or.inl (by decide))

/-- C8: the entry point exits 0 when the pipeline succeeds; any exception is
handled once, at the single top-level handler, which prints the message and
the full traceback and exits 1 (non-zero). -/
theorem main_exit_codes :
    (topLevelMain (Except.ok ())).exitCode = 0
  ∧ (∀ e : String, (topLevelMain (Except.error e)).exitCode = 1
      ∧ (topLevelMain (Except.error e)).printedMessage = some e
      ∧ (topLevelMain (Except.error e)).printedTrace = true
      ∧ (topLevelMain (Except.error e)).exitCode ≠ 0) :=
  ⟨rfl, fun e => ⟨rfl, rfl, rfl, Nat.one_ne_zero⟩⟩

/-- C9: each of the six renderers builds its frame at the fixed 1920×1080
resolution and returns it (in this pure embedding the returned frame is
immutable by construction, matching the build-then-return structure of the
source: every renderer ends with `return np.array(img)` and never touches the
array afterwards). -/
theorem renderers_fixed_resolution :
    (∀ (text : String) (subtext : Option String) (fs : Nat),
      (create_text_image text subtext fs).width = 1920 ∧
      (create_text_image text subtext fs).height = 1080)
  ∧ (create_logo_scene.width = 1920 ∧ create_logo_scene.height = 1080)
  ∧ (create_terminal_scene.width = 1920 ∧ create_terminal_scene.height = 1080)
  ∧ (create_chat_demo_scene.width = 1920 ∧ create_chat_demo_scene.height = 1080)
  ∧ (create_comparison_chart.width = 1920 ∧ create_comparison_chart.height = 1080)
  ∧ (create_github_end_scene.width = 1920 ∧ create_github_end_scene.height = 1080) :=
  ⟨fun _ _ _ => ⟨rfl, rfl⟩, ⟨rfl, rfl⟩, ⟨rfl, rfl⟩, ⟨rfl, rfl⟩, ⟨rfl, rfl⟩, ⟨rfl, rfl⟩⟩

/-- C10: `hex_to_rgb` fails exactly when one of the three two-character
slices at 0-1, 2-3, 4-5 of the '#'-stripped input is not parseable
hexadecimal; in particular extra leading '#' characters ("###0F172A") and
excess characters past the sixth digit ("0F172A99ZZ") are silently accepted,
and a five-character input parses its one-character last slice. -/
theorem hex_to_rgb_error_iff_bad_slice :
    (∀ s : List Char, hex_to_rgb s = none ↔
      (pyIntHex (slicePair (hexStripped s) 0) = none ∨
       pyIntHex (slicePair (hexStripped s) 2) = none ∨
       pyIntHex (slicePair (hexStripped s) 4) = none))
  ∧ hex_to_rgb ("###0F172A".toList) = some (15, 23, 42)
  ∧ hex_to_rgb ("0F172A99ZZ".toList) = some (15, 23, 42)
  ∧ hex_to_rgb ("0F172".toList) = some (15, 23, 2) := by
  refine ⟨?_, by decide, by decide, by decide⟩
  intro s
  unfold hex_to_rgb
  cases h0 : pyIntHex (slicePair (hexStripped s) 0) <;>
    cases h1 : pyIntHex (slicePair (hexStripped s) 2) <;>
      cases h2 : pyIntHex (slicePair (hexStripped s) 4) <;>
        simp

end SynapseVideo
